import Mathlib

/-! Shallow embedding of the note-type core of `anki/models.py` (the `ModelManager`
class): the data model, the requirement-cache builder, the availability evaluator,
the cloze ordinal extractor, and the field/template mutation pipeline, together with
proofs of the specification's claims about them. The renderer and the storage layer
are collaborators: the renderer is a function parameter, storage is an explicit
`Col` state plus a trace of the storage calls each mutation performs. -/

namespace Anki

/-- Note-type variant: the `type` entry of a model, `MODEL_STD` or `MODEL_CLOZE`
(from `anki.consts`). -/
inductive ModelType
  | std
  | cloze
deriving DecidableEq

/-- Kind of a requirement-cache entry: the first component of the tuples produced by
`_reqForTemplate` ("none", "all" or "any"). -/
inductive ReqKind
  | rnone
  | rall
  | rany
deriving DecidableEq

/-- One field of a note-type (the `defaultField` dict): display attributes (sticky,
rtl, font, size, media) are opaque pass-through and omitted. -/
structure Field where
  name : String
  ord : Nat
deriving DecidableEq

/-- One card template of a note-type (the `defaultTemplate` dict): `did` and `css`
are opaque pass-through and omitted. -/
structure Template where
  name : String
  ord : Nat
  qfmt : String
  afmt : String
deriving DecidableEq

/-- Placeholder for `m['tmpls'][0]` on an empty template list: Python raises
IndexError there, and every theorem touching that access assumes a non-empty
template list. -/
def emptyTemplate : Template := { name := "", ord := 0, qfmt := "", afmt := "" }

/-- A note-type (a `model` dict). `id = 0` models the falsy `None` id of an unsaved
model (the `if m['id']` checks). `req` is the requirement cache. The mod/usn
timestamps, latex options and deck override are opaque pass-through and omitted. -/
structure Model where
  id : Nat
  mtype : ModelType
  flds : List Field
  tmpls : List Template
  sortf : Nat
  req : List (Nat × ReqKind × List Nat)
deriving DecidableEq

/-- A stored note row (the notes table). `flds` is kept as the split field vector:
`joinFields`/`splitFields` (from `anki.utils`, outside this module) are mutually
inverse encodings of it. -/
structure Note where
  id : Nat
  mid : Nat
  flds : List String
deriving DecidableEq

/-- A stored card row (the cards table). -/
structure Card where
  id : Nat
  nid : Nat
  ord : Nat
deriving DecidableEq

/-- The storage collaborator's state: the stored notes and cards. -/
structure Col where
  notes : List Note
  cards : List Card
deriving DecidableEq

/-- Storage-collaborator calls a mutation performs, in order: the schema-change
notification (`self.col.modSchema()`), bulk writes to stored notes (`update notes
...`, including `updateFieldCache`), bulk writes to stored cards (`update cards ...`,
including `genCards`), and card deletion (`remCards`). -/
inductive Ev
  | modSchema
  | noteWrite
  | cardWrite
  | cardDelete
deriving DecidableEq

/-- The renderer collaborator, abstracting `self.col._renderQA(data)['q']` for a
fixed model: given a template ordinal (`data[4]`) and the split field vector
(`data[6]` before `joinFields`), it returns the rendered question text. It is pure
and deterministic (spec section 6). -/
def Renderer : Type := Nat → List String → String

/-- Python 2 `str.strip()` whitespace: space, tab, newline, return, vertical tab and
form feed. -/
def isPySpace (c : Char) : Bool :=
  c == ' ' || c == '\t' || c == '\n' || c == '\r' || c == '\x0b' || c == '\x0c'

/-- Python `s.strip()`: drop leading and trailing whitespace. -/
def strip (s : String) : String :=
  String.mk (((s.data.dropWhile isPySpace).reverse.dropWhile isPySpace).reverse)

/-- Loop body of `_updateFieldOrds`: `for c, f in enumerate(m['flds']): f['ord'] = c`,
starting the counter at `c`. -/
def renumberFields : Nat → List Field → List Field
  | _, [] => []
  | c, f :: fs => { f with ord := c } :: renumberFields (c + 1) fs

/-- models.py `_updateFieldOrds(m)`: reassign field ordinals to list positions. -/
def updateFieldOrds (fs : List Field) : List Field := renumberFields 0 fs

/-- Loop body of `_updateTemplOrds`, starting the counter at `c`. -/
def renumberTemplates : Nat → List Template → List Template
  | _, [] => []
  | c, t :: ts => { t with ord := c } :: renumberTemplates (c + 1) ts

/-- models.py `_updateTemplOrds(m)`: reassign template ordinals to list positions. -/
def updateTemplOrds (ts : List Template) : List Template := renumberTemplates 0 ts

/-- models.py `_reqForTemplate(m, flds, t)`, with the renderer specialised to the
probed template (the model id and `t['ord']` are fixed inside `data`): probe with the
all-sentinel vector `a`, the all-empty vector `b`, then with single-blank and
single-fill variants, and classify the template. -/
def reqForTemplate (render : List String → String) (flds : List String) :
    ReqKind × List Nat :=
  let a := flds.map fun _ => "1"
  let b := flds.map fun _ => ""
  let full := render a
  let empty := render b
  if full = empty then (ReqKind.rnone, [])
  else
    let req := (List.range flds.length).foldl
      (fun req i => if render (a.set i "") = empty then req ++ [i] else req) []
    if req = [] then
      (ReqKind.rany, (List.range flds.length).foldl
        (fun req i => if render (b.set i "1") ≠ empty then req ++ [i] else req) [])
    else (ReqKind.rall, req)

/-- models.py `_updateRequired(m)`: nothing to do for a Cloze model; otherwise
rebuild `m['req']` with one entry `(t['ord'], kind, required)` per template. -/
def updateRequired (render : Renderer) (m : Model) : Model :=
  if m.mtype = ModelType.cloze then m
  else
    { m with req := m.tmpls.map fun t =>
        let ret := reqForTemplate (render t.ord) (m.flds.map fun f => f.name)
        (t.ord, ret.1, ret.2) }

/-- models.py `save(m)` restricted to one model: bump mod/usn (omitted) and rebuild
the requirement cache — only when the model has a truthy id. The registry dirty flag
and the optional template sync are outside this state. -/
def save (render : Renderer) (m : Model) : Model :=
  if m.id = 0 then m else updateRequired render m

/-- models.py `fieldMap(m)` looked up at one name, keeping only the ordinal: the
dict is built left to right over `m['flds']`, so a later field with the same name
wins. -/
def fieldOrd (flds : List Field) (name : String) : Option Nat :=
  flds.foldl (fun acc f => if f.name = name then some f.ord else acc) none

/-- The trimmed payload lookup `fields[c]` built at the top of `availOrds`:
`fields[c] = splitFields(flds)[c].strip()`. Out-of-range access raises KeyError in
Python; the embedding totalises it with `""`, and theorems restrict required sets to
the payload's range. -/
def fieldsAt (sflds : List String) (c : Nat) : String := strip (sflds.getD c "")

/-- The Standard branch of models.py `availOrds(m, flds)`: walk the cached entries in
order and keep the ordinal of each satisfied one. -/
def availStdOrds (req : List (Nat × ReqKind × List Nat)) (sflds : List String) :
    List Nat :=
  req.foldl
    (fun avail e =>
      match e.2.1 with
      | ReqKind.rnone => avail
      | ReqKind.rall =>
        if e.2.2.all fun idx => fieldsAt sflds idx != "" then avail ++ [e.1]
        else avail
      | ReqKind.rany =>
        if e.2.2.any fun idx => fieldsAt sflds idx != "" then avail ++ [e.1]
        else avail)
    []

/-- Maximal digit prefix of the input (the greedy `\d+`, which must then be followed
by `::`). -/
def takeDigits : List Char → List Char × List Char
  | [] => ([], [])
  | c :: rest =>
    if c.isDigit then
      let p := takeDigits rest
      (c :: p.1, p.2)
    else ([], c :: rest)

/-- Python `int(...)` on a digit string. -/
def digitsToNat (ds : List Char) : Nat :=
  ds.foldl (fun n c => n * 10 + (c.toNat - '0'.toNat)) 0

/-- Tail of a deletion marker after the `::`: the lazy `[^}]*?` followed by a doubled
closing brace — skip characters other than a closing brace, then require two of
them. -/
def markerBody : List Char → Option (List Char)
  | '}' :: '}' :: rest => some rest
  | '}' :: _ => none
  | _ :: rest => markerBody rest
  | [] => none

/-- One attempted match of the marker pattern (`c` prefix, digits, `::`, lazy body)
at the current position: returns the parsed `N` and the input after the marker. -/
def matchMarker : List Char → Option (Nat × List Char)
  | '{' :: '{' :: 'c' :: rest =>
    let p := takeDigits rest
    if p.1 = [] then none
    else
      match p.2 with
      | ':' :: ':' :: r2 =>
        match markerBody r2 with
        | some rest2 => some (digitsToNat p.1, rest2)
        | none => none
      | _ => none
  | _ => none

/-- Scan of `re.findall` for the deletion-marker pattern: left to right, restart one
character later on a failed match, continue after the end of each match. The fuel is
the input length, which suffices because every step consumes at least one
character. -/
def findClozeNumsAux : Nat → List Char → List Nat
  | 0, _ => []
  | _, [] => []
  | fuel + 1, c :: rest =>
    match matchMarker (c :: rest) with
    | some p => p.1 :: findClozeNumsAux fuel p.2
    | none => findClozeNumsAux fuel rest

/-- All parsed `N` of the deletion markers in one raw field value, in order. -/
def findClozeNums (s : List Char) : List Nat := findClozeNumsAux s.length s

/-- The lazy capture of the cloze-reference pattern (`(.+?)` before the doubled
closing brace): consume at least one non-newline character, stopping at the first
doubled closing brace after it. `acc` holds the reversed capture so far. -/
def refCapture : List Char → List Char → Option (List Char × List Char)
  | acc, c1 :: c2 :: rest =>
    if !acc.isEmpty && c1 == '}' && c2 == '}' then some (acc.reverse, rest)
    else if c1 == '\n' then none
    else refCapture (c1 :: acc) (c2 :: rest)
  | _, _ => none

/-- One attempted match of the cloze-reference pattern (`cloze:` after a doubled
opening brace, then the lazy capture) at the current position. -/
def matchRef : List Char → Option (List Char × List Char)
  | '{' :: '{' :: 'c' :: 'l' :: 'o' :: 'z' :: 'e' :: ':' :: rest => refCapture [] rest
  | _ => none

/-- Scan of `re.findall` for the cloze-reference pattern, like `findClozeNumsAux`. -/
def findClozeRefsAux : Nat → List Char → List (List Char)
  | 0, _ => []
  | _, [] => []
  | fuel + 1, c :: rest =>
    match matchRef (c :: rest) with
    | some p => p.1 :: findClozeRefsAux fuel p.2
    | none => findClozeRefsAux fuel rest

/-- All captured field names of the cloze references in a question format, in
order. -/
def findClozeRefs (s : List Char) : List (List Char) := findClozeRefsAux s.length s

/-- The `[int(m)-1 for m in re.findall(...)]` comprehension of `_availClozeOrds`:
zero-based marker ordinals of one raw field value. -/
def clozeMarkerNums (value : String) : List Int :=
  (findClozeNums value.data).map fun n => (n : Int) - 1

/-- models.py `_availClozeOrds(m, flds)`: union, over the cloze references of the
first template's question format that name a field of the model (references to
missing names are skipped), of the marker ordinals found in that field's raw
(untrimmed) value. The running Python `set` is a `Finset`; the final `list(ords)`
serialises it in an unspecified order. -/
def availClozeOrds (m : Model) (sflds : List String) : Finset Int :=
  (findClozeRefs (m.tmpls.headD emptyTemplate).qfmt.data).foldl
    (fun ords fname =>
      match fieldOrd m.flds (String.mk fname) with
      | none => ords
      | some ord => ords ∪ (clozeMarkerNums (sflds.getD ord "")).toFinset)
    ∅

/-- Result of models.py `availOrds`: Python returns a plain list in both branches;
the constructor records which branch produced it, and the Cloze branch keeps the set
that `list(...)` serialises. -/
inductive Avail
  | std (ords : List Nat)
  | cloze (ords : Finset Int)
deriving DecidableEq

/-- models.py `availOrds(m, flds)`: delegate Cloze models to the extractor,
otherwise trim the split payload and evaluate the cached requirement entries. -/
def availOrds (m : Model) (sflds : List String) : Avail :=
  if m.mtype = ModelType.cloze then Avail.cloze (availClozeOrds m sflds)
  else Avail.std (availStdOrds m.req sflds)

/-- models.py `_transformFields(m, fn)`: a no-op for an unsaved model; otherwise
apply `fn` to every stored note of the model and write the notes back (one bulk
note write). -/
def transformFields (m : Model) (fn : List String → List String) (col : Col) :
    Col × List Ev :=
  if m.id = 0 then (col, [])
  else
    ({ col with notes := col.notes.map fun n =>
        if n.mid = m.id then { n with flds := fn n.flds } else n },
     [Ev.noteWrite])

/-- models.py `addField(m, field)`: mark the schema changed when the model is saved,
append the field, renumber ordinals, save, and back-fill one empty slot at the end of
every stored note of the model. -/
def addField (render : Renderer) (col : Col) (m : Model) (field : Field) :
    Model × Col × List Ev :=
  let ev0 : List Ev := if m.id = 0 then [] else [Ev.modSchema]
  let m1 := save render { m with flds := updateFieldOrds (m.flds ++ [field]) }
  let p := transformFields m1 (fun fields => fields ++ [""]) col
  (m1, p.1, ev0 ++ p.2)

/-- One pass of the `re.sub` in `renameField` for a literal field name: each match is
the name wrapped in doubled braces, or one of the characters `:#^/` followed by the
name and a doubled closing brace. With a new name the delimiters are kept (the
backreferences in the replacement); with `None` the whole match is dropped. The fuel
is the input length, which suffices because every step consumes at least one
character. -/
def subFieldRefsAux (name : List Char) (repl : Option (List Char)) :
    Nat → List Char → List Char
  | 0, s => s
  | _, [] => []
  | fuel + 1, c :: rest =>
    if List.isPrefixOf ('{' :: '{' :: (name ++ ['}', '}'])) (c :: rest) then
      (match repl with
       | some r => '{' :: '{' :: (r ++ ['}', '}'])
       | none => []) ++ subFieldRefsAux name repl fuel ((c :: rest).drop (name.length + 4))
    else if (c == ':' || c == '#' || c == '^' || c == '/')
        && List.isPrefixOf (name ++ ['}', '}']) rest then
      (match repl with
       | some r => c :: (r ++ ['}', '}'])
       | none => []) ++ subFieldRefsAux name repl fuel (rest.drop (name.length + 2))
    else c :: subFieldRefsAux name repl fuel rest

/-- The template-text rewrite of `renameField`, on one format string. -/
def subFieldRefs (name : String) (repl : Option String) (s : String) : String :=
  String.mk (subFieldRefsAux name.data (repl.map String.data) s.data.length s.data)

/-- models.py `renameField(m, field, newName)` acting on the template texts: mark the
schema changed, rewrite every `qfmt`/`afmt` reference to the field's name (dropping
the reference when the new name is `None`), then save. The assignment to the field
object's own name is carried by the caller. -/
def renameField (render : Renderer) (m : Model) (oldName : String)
    (newName : Option String) : Model × List Ev :=
  let m1 := { m with tmpls := m.tmpls.map fun t =>
      { t with qfmt := subFieldRefs oldName newName t.qfmt,
               afmt := subFieldRefs oldName newName t.afmt } }
  (save render m1, [Ev.modSchema])

/-- models.py `remField(m, field)` with the field given by its index
(`m['flds'].index(field)`): mark the schema changed, drop the field, clamp the sort
index, renumber, strip the slot from every stored note, rebuild the sort cache when
the removed slot was the sort field, and finish through `renameField` (which saves).
Python raises on an out-of-range index; theorems assume it is in range. -/
def remField (render : Renderer) (col : Col) (m : Model) (idx : Nat) :
    Model × Col × List Ev :=
  match m.flds[idx]? with
  | none => (m, col, [Ev.modSchema])
  | some field =>
    let flds1 := m.flds.eraseIdx idx
    let sortf1 := if flds1.length ≤ m.sortf then m.sortf - 1 else m.sortf
    let m1 := { m with flds := updateFieldOrds flds1, sortf := sortf1 }
    let p := transformFields m1 (fun fields => fields.eraseIdx idx) col
    let ev2 : List Ev := if idx = sortf1 then [Ev.noteWrite] else []
    let q := renameField render m1 field.name none
    (q.1, p.1, [Ev.modSchema] ++ p.2 ++ ev2 ++ q.2)

/-- The `move(fields)` closure in `moveField`: `val = fields[oldidx]; del
fields[oldidx]; fields.insert(idx, val)`. Python raises IndexError when `oldidx` is
out of range; the embedding leaves the list unchanged there (theorems assume the
invariant that a stored vector has one slot per field). -/
def moveListIdx (oldidx idx : Nat) (fields : List String) : List String :=
  match fields[oldidx]? with
  | none => fields
  | some val => (fields.eraseIdx oldidx).insertIdx idx val

/-- models.py `moveField(m, field, idx)` with the field given by its current index
(`m['flds'].index(field)`): mark the schema changed (before the early return on a
no-op move), reposition the field, set the sort index to the destination, renumber,
save, and permute every stored note's vector the same way. -/
def moveField (render : Renderer) (col : Col) (m : Model) (oldidx idx : Nat) :
    Model × Col × List Ev :=
  if oldidx = idx then (m, col, [Ev.modSchema])
  else
    match m.flds[oldidx]? with
    | none => (m, col, [Ev.modSchema])
    | some field =>
      let m1 := save render
        { m with
          flds := updateFieldOrds ((m.flds.eraseIdx oldidx).insertIdx idx field),
          sortf := idx }
      let p := transformFields m1 (moveListIdx oldidx idx) col
      (m1, p.1, [Ev.modSchema] ++ p.2)

/-- models.py `addTemplate(m, template)`: mark the schema changed when the model is
saved, append, renumber template ordinals, save. No stored-note or card write (the
advised `genCards` call is the caller's). -/
def addTemplate (render : Renderer) (m : Model) (template : Template) :
    Model × List Ev :=
  let ev0 : List Ev := if m.id = 0 then [] else [Ev.modSchema]
  (save render { m with tmpls := updateTemplOrds (m.tmpls ++ [template]) }, ev0)

/-- The `cids` list of `remTemplate`: ids of the cards returned by the SQL join of
cards and the model's notes at the removed ordinal. -/
def remTemplateCids (col : Col) (m : Model) (ord : Nat) : List Nat :=
  (col.cards.filter fun c =>
      c.ord == ord && col.notes.any fun f => c.nid == f.id && f.mid == m.id).map
    fun c => c.id

/-- The orphan check of `remTemplate`: does some note carrying one of the `cids`
cards have fewer than two cards in total? (the `group by nid having count() < 2`
query). -/
def remTemplateGuard (col : Col) (m : Model) (ord : Nat) : Bool :=
  ((col.cards.filter fun c => (remTemplateCids col m ord).contains c.id).map
      fun c => c.nid).any
    fun nid => decide ((col.cards.filter fun c => c.nid == nid).length < 2)

/-- models.py `remTemplate(m, template)` with the template given by its index `ord`
(`m['tmpls'].index(template)`). Collect the cards on the template (the SQL join of
cards and the model's notes); refuse when some note carrying one of them has fewer
than two cards in total; otherwise mark the schema changed, delete those cards,
shift the higher card ordinals of the model down by one, drop the template, renumber
and save. The leading `assert len(m['tmpls']) > 1` is a caller precondition, not a
runtime branch. -/
def remTemplate (render : Renderer) (col : Col) (m : Model) (ord : Nat) :
    Bool × Model × Col × List Ev :=
  if remTemplateGuard col m ord then (false, m, col, [])
  else
    let cards1 := col.cards.filter fun c => !(remTemplateCids col m ord).contains c.id
    let cards2 := cards1.map fun c =>
      if ((col.notes.any fun f => f.id == c.nid && f.mid == m.id)
          && decide (ord < c.ord)) = true then
        { c with ord := c.ord - 1 }
      else c
    let m1 := save render { m with tmpls := updateTemplOrds (m.tmpls.eraseIdx ord) }
    (true, m1, { col with cards := cards2 },
     [Ev.modSchema, Ev.cardDelete, Ev.cardWrite])

/-- models.py `moveTemplate(m, template, idx)` with the template given by its current
index: reorder the template list, renumber, save, then remap every stored card of
the model through the generated `case when ord = old then new` SQL fragment. This
operation performs no `modSchema` call. A card ordinal matching no branch becomes
NULL in SQL; that cannot happen while card ordinals index templates, and the
embedding leaves such a card unchanged. -/
def moveTemplate (render : Renderer) (col : Col) (m : Model) (oldidx idx : Nat) :
    Model × Col × List Ev :=
  if oldidx = idx then (m, col, [])
  else
    match m.tmpls[oldidx]? with
    | none => (m, col, [])
    | some template =>
      let olds := ((m.tmpls.map fun t => t.ord).eraseIdx oldidx).insertIdx idx
        template.ord
      let mapping := olds.enum.map fun p => (p.2, p.1)
      let m1 := save render
        { m with
          tmpls := updateTemplOrds ((m.tmpls.eraseIdx oldidx).insertIdx idx template) }
      let cards1 := col.cards.map fun c =>
        if col.notes.any fun f => f.id == c.nid && f.mid == m.id then
          { c with ord := (mapping.lookup c.ord).getD c.ord }
        else c
      (m1, { col with cards := cards1 }, [Ev.cardWrite])

/-- Per-note field remap inside `_changeNotes`: build the dict `newflds[new] =
flds[old]` for each map entry, then read positions `0 .. nfields-1` back, defaulting
to `""`. Python raises IndexError when `old` is out of range of the stored vector;
theorems assume the map is in range, and the embedding totalises the read with
`""`. -/
def changeNoteFlds (map : List (Nat × Nat)) (nfields : Nat) (flds : List String) :
    List String :=
  let newflds : Nat → Option String :=
    map.foldl (fun acc p k => if k = p.2 then some (flds.getD p.1 "") else acc k)
      (fun _ => none)
  (List.range nfields).map fun c => (newflds c).getD ""

/-- models.py `_changeNotes(nids, newModel, map)`: rewrite each listed note's vector
through `changeNoteFlds` and repoint it at the new model; one bulk note write plus
the `updateFieldCache` rebuild. -/
def changeNotes (nids : List Nat) (newModel : Model) (map : List (Nat × Nat))
    (col : Col) : Col × List Ev :=
  ({ col with notes := col.notes.map fun n =>
      if nids.contains n.id then
        { n with flds := changeNoteFlds map newModel.flds.length n.flds,
                 mid := newModel.id }
      else n },
   [Ev.noteWrite, Ev.noteWrite])

/-- models.py `_changeCards(nids, newModel, map)`: for each card of the listed
notes, reassign its ordinal through the map, or collect it for deletion when the map
sends its ordinal to `None`. Python raises KeyError when the ordinal is missing from
the map; the embedding leaves such a card unchanged. One bulk card write, then the
deletion. -/
def changeCards (nids : List Nat) (map : List (Nat × Option Nat)) (col : Col) :
    Col × List Ev :=
  ({ col with cards := col.cards.filterMap fun c =>
      if nids.contains c.nid then
        match map.lookup c.ord with
        | some (some newOrd) => some { c with ord := newOrd }
        | some none => none
        | none => some c
      else some c },
   [Ev.cardWrite, Ev.cardDelete])

/-- models.py `change(m, nids, newModel, fmap, cmap)`: mark the schema changed,
remap note fields, remap or delete cards, then regenerate cards for the migrated
notes (`self.col.genCards`, a bulk card write by the storage collaborator). The
`assert` on the id/fmap/cmap combination is a caller precondition. -/
def change (col : Col) (nids : List Nat) (newModel : Model)
    (fmap : Option (List (Nat × Nat))) (cmap : Option (List (Nat × Option Nat))) :
    Col × List Ev :=
  let p := match fmap with
    | some fm => changeNotes nids newModel fm col
    | none => (col, [])
  let q := match cmap with
    | some cm => changeCards nids cm p.1
    | none => (p.1, [])
  (q.1, [Ev.modSchema] ++ p.2 ++ q.2 ++ [Ev.cardWrite])

/-- Does this storage call write stored notes or cards? -/
def isWrite : Ev → Bool
  | Ev.modSchema => false
  | _ => true

/-- The schema-first discipline on a storage-call trace: every write of stored notes
or cards is preceded by a `modSchema` notification. -/
def SchemaFirst (tr : List Ev) : Prop :=
  ∀ i, (h : i < tr.length) → isWrite (tr.get ⟨i, h⟩) = true →
    ∃ j, ∃ hj : j < tr.length, j < i ∧ tr.get ⟨j, hj⟩ = Ev.modSchema

/-! Shared helper lemmas. -/

/-- Accumulating conditional append, as in the `req.append(i)` loops of
`_reqForTemplate`, is filtering. -/
theorem foldl_req_append (f : Nat → Prop) [DecidablePred f] :
    ∀ (l acc : List Nat),
      (l.foldl (fun req i => if f i then req ++ [i] else req) acc) =
        acc ++ l.filter fun i => decide (f i)
  | [], acc => by simp
  | i :: l, acc => by
    by_cases h : f i <;>
      simp [List.foldl_cons, List.filter_cons, h, foldl_req_append f l]

/-- The three possible shapes of a `_reqForTemplate` result: an unsatisfiable
template, an "all" entry with a non-empty required set, or an "any" entry. -/
theorem reqForTemplate_cases (render : List String → String) (flds : List String) :
    reqForTemplate render flds = (ReqKind.rnone, []) ∨
      ((reqForTemplate render flds).1 = ReqKind.rall ∧
        (reqForTemplate render flds).2 ≠ []) ∨
      (reqForTemplate render flds).1 = ReqKind.rany := by
  unfold reqForTemplate
  dsimp only []
  split
  · left; rfl
  · split
    · right; right; rfl
    · next hne => right; left; exact ⟨rfl, hne⟩

/-- C2: for every Standard note-type and each of its templates, the requirement
cache builder classifies the template by differential probing: if rendering the
question with the all-sentinel vector equals rendering with the all-empty vector,
the entry is kind None with an empty required set; otherwise, if blanking some single
index of the full vector collapses the render to the all-empty render, the entry is
kind All whose required set is exactly the set of such indices; otherwise the entry
is kind Any whose required set is exactly the set of indices whose single fill in
the empty vector changes the render, possibly empty. -/
theorem reqForTemplate_classification (render : List String → String)
    (flds : List String) :
    (render (flds.map fun _ => "1") = render (flds.map fun _ => "") →
      reqForTemplate render flds = (ReqKind.rnone, [])) ∧
    (render (flds.map fun _ => "1") ≠ render (flds.map fun _ => "") →
      ((∃ i < flds.length,
          render ((flds.map fun _ => "1").set i "") = render (flds.map fun _ => "")) →
        (reqForTemplate render flds).1 = ReqKind.rall ∧
        ∀ i, i ∈ (reqForTemplate render flds).2 ↔
          i < flds.length ∧
            render ((flds.map fun _ => "1").set i "") =
              render (flds.map fun _ => "")) ∧
      ((¬ ∃ i < flds.length,
          render ((flds.map fun _ => "1").set i "") = render (flds.map fun _ => "")) →
        (reqForTemplate render flds).1 = ReqKind.rany ∧
        ∀ i, i ∈ (reqForTemplate render flds).2 ↔
          i < flds.length ∧
            render ((flds.map fun _ => "").set i "1") ≠
              render (flds.map fun _ => ""))) := by
  unfold reqForTemplate
  dsimp only []
  rw [foldl_req_append (fun i =>
        render ((flds.map fun _ => "1").set i "") = render (flds.map fun _ => "")),
      foldl_req_append (fun i =>
        render ((flds.map fun _ => "").set i "1") ≠ render (flds.map fun _ => ""))]
  simp only [List.nil_append]
  constructor
  · intro h
    rw [if_pos h]
  · intro h
    rw [if_neg h]
    have hmem : ∀ i, i ∈ (List.range flds.length).filter
        (fun i => decide (render ((flds.map fun _ => "1").set i "") =
          render (flds.map fun _ => ""))) ↔
        i < flds.length ∧ render ((flds.map fun _ => "1").set i "") =
          render (flds.map fun _ => "") := by
      intro i
      simp [List.mem_filter, List.mem_range, and_comm]
    constructor
    · intro hex
      obtain ⟨i, hi, hblank⟩ := hex
      have hne : (List.range flds.length).filter
          (fun i => decide (render ((flds.map fun _ => "1").set i "") =
            render (flds.map fun _ => ""))) ≠ [] := by
        intro hnil
        have := (hmem i).mpr ⟨hi, hblank⟩
        rw [hnil] at this
        exact List.not_mem_nil i this
      rw [if_neg hne]
      exact ⟨rfl, hmem⟩
    · intro hnex
      have hnil : (List.range flds.length).filter
          (fun i => decide (render ((flds.map fun _ => "1").set i "") =
            render (flds.map fun _ => ""))) = [] := by
        rw [List.filter_eq_nil_iff]
        intro i hi
        simp only [decide_eq_true_eq]
        intro hblank
        exact hnex ⟨i, List.mem_range.mp hi, hblank⟩
      rw [if_pos hnil]
      refine ⟨rfl, fun i => ?_⟩
      simp [List.mem_filter, List.mem_range, and_comm]

/-- A renderer (for one fixed template) that echoes the first field value. -/
def firstRender : List String → String := fun flds => flds.getD 0 ""

/-- Witness for the C2 theorem at a one-field note-type whose template shows the
first field: the builder classifies it as an "all" entry requiring field 0. -/
theorem reqForTemplate_classification_witness :
    (reqForTemplate firstRender ["F"]).1 = ReqKind.rall ∧
      0 ∈ (reqForTemplate firstRender ["F"]).2 := by
  have h := (reqForTemplate_classification firstRender ["F"]).2 (by decide)
  have h2 := h.1 ⟨0, by decide, by decide⟩
  exact ⟨h2.1, (h2.2 0).mpr ⟨by decide, by decide⟩⟩

/-- C9: for a Standard note-type the builder produces one entry per template, in
template-list order, carrying that template's ordinal; every "all" entry has a
non-empty required set and every "none" entry has an empty one — so the evaluator's
All branch never sees an empty required set on a builder-produced cache. -/
theorem updateRequired_invariants (render : Renderer) (m : Model)
    (h : m.mtype = ModelType.std) :
    (updateRequired render m).req.length = m.tmpls.length ∧
    (∀ i : Nat, ((updateRequired render m).req[i]?).map (fun e => e.1) =
      (m.tmpls[i]?).map fun t => t.ord) ∧
    (∀ e ∈ (updateRequired render m).req,
      (e.2.1 = ReqKind.rall → e.2.2 ≠ []) ∧ (e.2.1 = ReqKind.rnone → e.2.2 = [])) := by
  have hne : ¬ m.mtype = ModelType.cloze := by rw [h]; intro hc; cases hc
  unfold updateRequired
  rw [if_neg hne]
  refine ⟨by simp,
    fun i => by cases htt : m.tmpls[i]? <;> simp [List.getElem?_map, htt],
    fun e he => ?_⟩
  simp only [List.mem_map] at he
  obtain ⟨t, _, rfl⟩ := he
  dsimp only []
  rcases reqForTemplate_cases (render t.ord) (m.flds.map fun f => f.name) with
    hc | ⟨hk, hr⟩ | hk
  · rw [hc]
    exact ⟨fun hab => (by cases hab), fun _ => rfl⟩
  · exact ⟨fun _ => hr, fun hab => (by rw [hk] at hab; cases hab)⟩
  · exact ⟨fun hab => (by rw [hk] at hab; cases hab),
      fun hab => (by rw [hk] at hab; cases hab)⟩

/-- A constant renderer used by concrete instances. -/
def constRender : Renderer := fun _ _ => ""

/-- Fixture: a Standard note-type with one field and one template. -/
def mStd1 : Model :=
  { id := 1, mtype := ModelType.std,
    flds := [{ name := "F", ord := 0 }],
    tmpls := [{ name := "t0", ord := 0, qfmt := "", afmt := "" }],
    sortf := 0, req := [] }

/-- Witness for the C9 theorem at a concrete Standard note-type. -/
theorem updateRequired_invariants_witness :
    mStd1.mtype = ModelType.std ∧
      (updateRequired constRender mStd1).req.length = mStd1.tmpls.length :=
  ⟨rfl, (updateRequired_invariants constRender mStd1 rfl).1⟩

/-- Satisfaction of one cached requirement entry by a payload (spec section 4.2): a
"none" entry is never satisfied; an "all" entry needs every required index to map to
a non-empty trimmed string; an "any" entry needs at least one such index. -/
def Eligible (sflds : List String) (e : Nat × ReqKind × List Nat) : Prop :=
  match e.2.1 with
  | ReqKind.rnone => False
  | ReqKind.rall => ∀ i ∈ e.2.2, fieldsAt sflds i ≠ ""
  | ReqKind.rany => ∃ i ∈ e.2.2, fieldsAt sflds i ≠ ""

instance (sflds : List String) (e : Nat × ReqKind × List Nat) :
    Decidable (Eligible sflds e) :=
  match e with
  | (_, ReqKind.rnone, _) => isFalse fun h => h
  | (_, ReqKind.rall, r) =>
    inferInstanceAs (Decidable (∀ i ∈ r, fieldsAt sflds i ≠ ""))
  | (_, ReqKind.rany, r) =>
    inferInstanceAs (Decidable (∃ i ∈ r, fieldsAt sflds i ≠ ""))

/-- The evaluator's accumulating loop keeps, in order, the ordinals of exactly the
satisfied entries. -/
theorem availStdOrds_foldl (sflds : List String) :
    ∀ (req : List (Nat × ReqKind × List Nat)) (acc : List Nat),
      req.foldl
        (fun avail e =>
          match e.2.1 with
          | ReqKind.rnone => avail
          | ReqKind.rall =>
            if e.2.2.all fun idx => fieldsAt sflds idx != "" then avail ++ [e.1]
            else avail
          | ReqKind.rany =>
            if e.2.2.any fun idx => fieldsAt sflds idx != "" then avail ++ [e.1]
            else avail)
        acc =
      acc ++ (req.filter fun e => decide (Eligible sflds e)).map fun e => e.1
  | [], acc => by simp
  | e :: req, acc => by
    rcases e with ⟨o, k, r⟩
    rcases k
    · have : ¬ Eligible sflds (o, ReqKind.rnone, r) := fun h => h
      simp only [List.foldl_cons, List.filter_cons, decide_eq_true_eq, this,
        decide_eq_false this]
      exact availStdOrds_foldl sflds req acc
    · by_cases h : Eligible sflds (o, ReqKind.rall, r)
      · have hb : (r.all fun idx => fieldsAt sflds idx != "") = true := by
          rw [List.all_eq_true]
          intro i hi
          exact bne_iff_ne.mpr (h i hi)
        simp only [List.foldl_cons, List.filter_cons, hb, if_true, decide_eq_true h,
          List.map_cons]
        rw [availStdOrds_foldl sflds req (acc ++ [o]), List.append_assoc]
        rfl
      · have hb : (r.all fun idx => fieldsAt sflds idx != "") = false := by
          rw [← Bool.not_eq_true, List.all_eq_true]
          intro hall
          exact h fun i hi => bne_iff_ne.mp (hall i hi)
        simp only [List.foldl_cons, List.filter_cons, hb, if_false,
          decide_eq_false h]
        exact availStdOrds_foldl sflds req acc
    · by_cases h : Eligible sflds (o, ReqKind.rany, r)
      · have hb : (r.any fun idx => fieldsAt sflds idx != "") = true := by
          rw [List.any_eq_true]
          obtain ⟨i, hi, hv⟩ := h
          exact ⟨i, hi, bne_iff_ne.mpr hv⟩
        simp only [List.foldl_cons, List.filter_cons, hb, if_true, decide_eq_true h,
          List.map_cons]
        rw [availStdOrds_foldl sflds req (acc ++ [o]), List.append_assoc]
        rfl
      · have hb : (r.any fun idx => fieldsAt sflds idx != "") = false := by
          rw [← Bool.not_eq_true, List.any_eq_true]
          intro hany
          obtain ⟨i, hi, hv⟩ := hany
          exact h ⟨i, hi, bne_iff_ne.mp hv⟩
        simp only [List.foldl_cons, List.filter_cons, hb, if_false,
          decide_eq_false h]
        exact availStdOrds_foldl sflds req acc

/-- C3: for a Standard note-type with a cached requirement list, `availOrds`
returns, in template-list order, exactly the ordinals of the satisfied entries; a
"none" entry is never satisfied for any payload, an "all" entry is satisfied iff
every required index maps to a non-empty trimmed string, an "any" entry iff at
least one does, so an "any" entry with an empty required set is never satisfied. -/
theorem availOrds_std_eligibility (m : Model) (sflds : List String)
    (hstd : m.mtype = ModelType.std)
    (_hbound : ∀ e ∈ m.req, ∀ i ∈ e.2.2, i < sflds.length) :
    availOrds m sflds =
      Avail.std ((m.req.filter fun e => decide (Eligible sflds e)).map fun e => e.1) ∧
    (∀ e ∈ m.req, e.2.1 = ReqKind.rnone → ¬ Eligible sflds e) ∧
    (∀ e ∈ m.req, e.2.1 = ReqKind.rall →
      (Eligible sflds e ↔ ∀ i ∈ e.2.2, strip (sflds.getD i "") ≠ "")) ∧
    (∀ e ∈ m.req, e.2.1 = ReqKind.rany →
      (Eligible sflds e ↔ ∃ i ∈ e.2.2, strip (sflds.getD i "") ≠ "")) ∧
    (∀ e ∈ m.req, e.2.1 = ReqKind.rany → e.2.2 = [] → ¬ Eligible sflds e) := by
  have hne : ¬ m.mtype = ModelType.cloze := by rw [hstd]; intro hc; cases hc
  refine ⟨?_, fun e _ hk => ?_, fun e _ hk => ?_, fun e _ hk => ?_,
    fun e _ hk hr => ?_⟩
  · unfold availOrds
    rw [if_neg hne]
    unfold availStdOrds
    rw [availStdOrds_foldl sflds m.req []]
    rfl
  · rcases e with ⟨o, k, r⟩
    cases hk
    exact fun h => h
  · rcases e with ⟨o, k, r⟩
    cases hk
    exact Iff.rfl
  · rcases e with ⟨o, k, r⟩
    cases hk
    exact Iff.rfl
  · rcases e with ⟨o, k, r⟩
    cases hk
    dsimp only [] at hr
    subst hr
    rintro ⟨i, hi, -⟩
    exact List.not_mem_nil i hi

/-- Fixture: a Standard note-type carrying one cached entry of each kind, including
an "any" entry with an empty required set. -/
def mStdReq : Model :=
  { id := 1, mtype := ModelType.std, flds := [], tmpls := [], sortf := 0,
    req := [(0, ReqKind.rall, [0]), (1, ReqKind.rany, [1]),
            (2, ReqKind.rnone, []), (3, ReqKind.rany, [])] }

/-- Witness for the C3 theorem: on payload `["hi", " "]` only the "all" entry with
required set `[0]` is satisfied, so only ordinal 0 is available. -/
theorem availOrds_std_eligibility_witness :
    availOrds mStdReq ["hi", " "] = Avail.std [0] := by
  have h := (availOrds_std_eligibility mStdReq ["hi", " "] rfl (by decide)).1
  rw [h]
  rfl

/-- The dict built by the `newflds[new] = flds[old]` loop answers `none` on keys
outside the map's image. -/
theorem changeNote_lookup_not_mem (flds : List String) :
    ∀ (map : List (Nat × Nat)) (acc : Nat → Option String) (k : Nat),
      (∀ p ∈ map, p.2 ≠ k) →
      map.foldl (fun acc p k2 => if k2 = p.2 then some (flds.getD p.1 "") else acc k2)
        acc k = acc k
  | [], _, _, _ => rfl
  | q :: map, acc, k, h => by
    rw [List.foldl_cons,
      changeNote_lookup_not_mem flds map _ k fun p hp => h p (List.mem_cons_of_mem q hp)]
    have : ¬ k = q.2 := fun hk => h q (List.mem_cons_self q map) hk.symm
    simp [this]

/-- With no duplicate targets, the dict answers each mapped target with the source
value of its entry. -/
theorem changeNote_lookup_mem (flds : List String) :
    ∀ (map : List (Nat × Nat)) (acc : Nat → Option String) (p : Nat × Nat),
      p ∈ map → (map.map fun q => q.2).Nodup →
      map.foldl (fun acc p k2 => if k2 = p.2 then some (flds.getD p.1 "") else acc k2)
        acc p.2 = some (flds.getD p.1 "")
  | [], _, _, hp, _ => absurd hp (List.not_mem_nil _)
  | q :: map, acc, p, hp, hnd => by
    rw [List.foldl_cons]
    rcases List.mem_cons.mp hp with rfl | hp2
    · have hnot : ∀ r ∈ map, r.2 ≠ p.2 := by
        intro r hr
        have := (List.nodup_cons.mp hnd).1
        intro he
        refine this ?_
        show p.2 ∈ List.map (fun q => q.2) map
        rw [← he]
        exact List.mem_map_of_mem (fun q => q.2) hr
      rw [changeNote_lookup_not_mem flds map _ p.2 hnot]
      simp
    · exact changeNote_lookup_mem flds map _ p hp2 (List.nodup_cons.mp hnd).2

/-- C6: for every note migrated by `change` with a field map, the rewritten vector
has the target note-type's field count; each map entry `old -> new` puts the old
value at position `new`; positions outside the map's image are empty; and the map
`0 -> 1, 1 -> 2` from a 2-field type to a 3-field type yields
`["", oldValue0, oldValue1]`. -/
theorem changeNoteFlds_spec (map : List (Nat × Nat)) (nfields : Nat)
    (flds : List String)
    (htgt : (map.map fun p => p.2).Nodup)
    (_hold : ∀ p ∈ map, p.1 < flds.length) :
    (changeNoteFlds map nfields flds).length = nfields ∧
    (∀ p ∈ map, p.2 < nfields →
      (changeNoteFlds map nfields flds)[p.2]? = some (flds.getD p.1 "")) ∧
    (∀ c, c < nfields → (∀ p ∈ map, p.2 ≠ c) →
      (changeNoteFlds map nfields flds)[c]? = some "") ∧
    (∀ v0 v1 : String, changeNoteFlds [(0, 1), (1, 2)] 3 [v0, v1] = ["", v0, v1]) := by
  have hget : ∀ c : Nat, c < nfields → (changeNoteFlds map nfields flds)[c]? =
      some ((map.foldl
        (fun acc p k2 => if k2 = p.2 then some (flds.getD p.1 "") else acc k2)
        (fun _ => none) c).getD "") := by
    intro c hc
    unfold changeNoteFlds
    rw [List.getElem?_map, List.getElem?_range hc]
    rfl
  refine ⟨by simp [changeNoteFlds], fun p hp hlt => ?_, fun c hc hni => ?_,
    fun v0 v1 => rfl⟩
  · rw [hget p.2 hlt, changeNote_lookup_mem flds map _ p hp htgt]
    rfl
  · rw [hget c hc, changeNote_lookup_not_mem flds map _ c hni]
    rfl

/-- Witness for the C6 theorem at the spec's Scenario D input. -/
theorem changeNoteFlds_spec_witness :
    changeNoteFlds [(0, 1), (1, 2)] 3 ["a", "b"] = ["", "a", "b"] :=
  (changeNoteFlds_spec [(0, 1), (1, 2)] 3 ["a", "b"] (by decide)
    (by decide)).2.2.2 "a" "b"

/-- Membership in the extractor's union-accumulating loop: an ordinal is collected
iff some listed reference resolves to a field whose raw value carries it. -/
theorem mem_availClozeOrds_foldl (flds : List Field) (sflds : List String) :
    ∀ (l : List (List Char)) (init : Finset Int) (x : Int),
      (x ∈ l.foldl (fun ords fname =>
          match fieldOrd flds (String.mk fname) with
          | none => ords
          | some ord => ords ∪ (clozeMarkerNums (sflds.getD ord "")).toFinset) init ↔
        (x ∈ init ∨ ∃ fname ∈ l, ∃ ord, fieldOrd flds (String.mk fname) = some ord ∧
          x ∈ clozeMarkerNums (sflds.getD ord "")))
  | [], init, x => by simp
  | fname :: l, init, x => by
    rw [List.foldl_cons]
    cases hf : fieldOrd flds (String.mk fname) with
    | none =>
      simp only [hf]
      rw [mem_availClozeOrds_foldl flds sflds l init x]
      simp only [List.mem_cons]
      constructor
      · rintro (h | ⟨g, hg, ord, hord, hx⟩)
        · exact Or.inl h
        · exact Or.inr ⟨g, Or.inr hg, ord, hord, hx⟩
      · rintro (h | ⟨g, rfl | hg, ord, hord, hx⟩)
        · exact Or.inl h
        · rw [hf] at hord; cases hord
        · exact Or.inr ⟨g, hg, ord, hord, hx⟩
    | some ord =>
      simp only [hf]
      rw [mem_availClozeOrds_foldl flds sflds l _ x]
      simp only [Finset.mem_union, List.mem_toFinset, List.mem_cons]
      constructor
      · rintro ((h | h) | ⟨g, hg, ord2, hord2, hx⟩)
        · exact Or.inl h
        · exact Or.inr ⟨fname, Or.inl rfl, ord, hf, h⟩
        · exact Or.inr ⟨g, Or.inr hg, ord2, hord2, hx⟩
      · rintro (h | ⟨g, rfl | hg, ord2, hord2, hx⟩)
        · exact Or.inl (Or.inl h)
        · rw [hf] at hord2
          cases hord2
          exact Or.inl (Or.inr hx)
        · exact Or.inr ⟨g, hg, ord2, hord2, hx⟩

/-- Fixture: the spec's Scenario B Cloze note-type with one Text field and a
question pattern referencing it. -/
def mCloze : Model :=
  { id := 2, mtype := ModelType.cloze,
    flds := [{ name := "Text", ord := 0 }],
    tmpls := [⟨"c", 0, "\x7b\x7bcloze:Text\x7d\x7d", ""⟩],
    sortf := 0, req := [] }

/-- C7: the cloze extractor returns the de-duplicated set of zero-based ordinals
N-1 over every deletion marker found in the raw (untrimmed) values of exactly those
fields referenced from the question pattern whose name is present in the field-name
map, silently skipping referenced names not in the map; on the Scenario B input
(pattern referencing Text, Text carrying markers 1 and 2) it returns the set of
0 and 1. -/
theorem availClozeOrds_spec (m : Model) (sflds : List String) :
    (∀ x : Int, x ∈ availClozeOrds m sflds ↔
      ∃ fname ∈ findClozeRefs (m.tmpls.headD emptyTemplate).qfmt.data,
        ∃ ord, fieldOrd m.flds (String.mk fname) = some ord ∧
          x ∈ clozeMarkerNums (sflds.getD ord "")) ∧
    availClozeOrds mCloze ["\x7b\x7bc1::foo\x7d\x7d \x7b\x7bc2::bar\x7d\x7d"] =
      ({0, 1} : Finset Int) := by
  constructor
  · intro x
    unfold availClozeOrds
    rw [mem_availClozeOrds_foldl]
    simp
  · rfl

/-- Fixture: a Cloze note-type with the same fields and first question pattern as
`mCloze` but a different answer pattern and an extra second template. -/
def mClozeB : Model :=
  { id := 3, mtype := ModelType.cloze,
    flds := [{ name := "Text", ord := 0 }],
    tmpls := [⟨"c", 0, "\x7b\x7bcloze:Text\x7d\x7d", "other answer"⟩,
      ⟨"extra", 1, "unrelated", "unrelated"⟩],
    sortf := 0, req := [] }

/-- C10: for Cloze note-types the availability result depends only on the first
template's question pattern, the field name-to-ordinal map and the payload: two
Cloze note-types agreeing on those produce identical `availOrds` results for every
payload, whatever their remaining templates or answer patterns. -/
theorem availOrds_cloze_depends_only (m1 m2 : Model) (sflds : List String)
    (h1 : m1.mtype = ModelType.cloze) (h2 : m2.mtype = ModelType.cloze)
    (_hne1 : m1.tmpls ≠ []) (_hne2 : m2.tmpls ≠ [])
    (hq : (m1.tmpls.headD emptyTemplate).qfmt = (m2.tmpls.headD emptyTemplate).qfmt)
    (hmap : ∀ name, fieldOrd m1.flds name = fieldOrd m2.flds name) :
    availOrds m1 sflds = availOrds m2 sflds := by
  unfold availOrds
  rw [if_pos h1, if_pos h2]
  unfold availClozeOrds
  have hstep : (fun (ords : Finset Int) (fname : List Char) =>
      match fieldOrd m1.flds (String.mk fname) with
      | none => ords
      | some ord => ords ∪ (clozeMarkerNums (sflds.getD ord "")).toFinset) =
      fun ords fname =>
      match fieldOrd m2.flds (String.mk fname) with
      | none => ords
      | some ord => ords ∪ (clozeMarkerNums (sflds.getD ord "")).toFinset := by
    funext ords fname
    rw [hmap]
  rw [hq, hstep]

/-- Witness for the C10 theorem: `mCloze` and `mClozeB` agree on the first question
pattern and the field map, so availability agrees on a concrete payload. -/
theorem availOrds_cloze_depends_only_witness :
    availOrds mCloze ["\x7b\x7bc1::foo\x7d\x7d"] =
      availOrds mClozeB ["\x7b\x7bc1::foo\x7d\x7d"] :=
  availOrds_cloze_depends_only mCloze mClozeB ["\x7b\x7bc1::foo\x7d\x7d"] rfl rfl
    (by decide) (by decide) rfl fun _ => rfl

/-! Projection lemmas: `save` (and the cache rebuild inside it) touches only the
`req` component of a model. -/

theorem save_id (render : Renderer) (m : Model) : (save render m).id = m.id := by
  unfold save updateRequired
  split
  · rfl
  · split <;> rfl

theorem save_mtype (render : Renderer) (m : Model) :
    (save render m).mtype = m.mtype := by
  unfold save updateRequired
  split
  · rfl
  · split <;> rfl

theorem save_flds (render : Renderer) (m : Model) : (save render m).flds = m.flds := by
  unfold save updateRequired
  split
  · rfl
  · split <;> rfl

theorem save_tmpls (render : Renderer) (m : Model) :
    (save render m).tmpls = m.tmpls := by
  unfold save updateRequired
  split
  · rfl
  · split <;> rfl

theorem save_sortf (render : Renderer) (m : Model) :
    (save render m).sortf = m.sortf := by
  unfold save updateRequired
  split
  · rfl
  · split <;> rfl

theorem save_req_of_ne (render : Renderer) (m : Model) (h : ¬ m.id = 0) :
    (save render m).req = (updateRequired render m).req := by
  unfold save
  rw [if_neg h]

theorem save_of_id0 (render : Renderer) (m : Model) (h : m.id = 0) :
    save render m = m := by
  unfold save
  rw [if_pos h]

/-- The renumbering loop preserves length. -/
theorem renumberFields_length :
    ∀ (c : Nat) (fs : List Field), (renumberFields c fs).length = fs.length
  | _, [] => rfl
  | c, _ :: fs => by
    simp only [renumberFields, List.length_cons, renumberFields_length (c + 1) fs]

/-- Position `i` of the renumbering loop started at `c` holds the original field
with ordinal `c + i`. -/
theorem renumberFields_getElem? :
    ∀ (c : Nat) (fs : List Field) (i : Nat),
      (renumberFields c fs)[i]? = (fs[i]?).map fun f => { f with ord := c + i }
  | _, [], i => by simp [renumberFields]
  | c, f :: fs, 0 => by simp [renumberFields]
  | c, f :: fs, i + 1 => by
    have harith : c + 1 + i = c + (i + 1) := by omega
    simp only [renumberFields, List.getElem?_cons_succ,
      renumberFields_getElem? (c + 1) fs i, harith]

theorem renumberTemplates_length :
    ∀ (c : Nat) (ts : List Template), (renumberTemplates c ts).length = ts.length
  | _, [] => rfl
  | c, _ :: ts => by
    simp only [renumberTemplates, List.length_cons,
      renumberTemplates_length (c + 1) ts]

theorem renumberTemplates_getElem? :
    ∀ (c : Nat) (ts : List Template) (i : Nat),
      (renumberTemplates c ts)[i]? = (ts[i]?).map fun t => { t with ord := c + i }
  | _, [], i => by simp [renumberTemplates]
  | c, t :: ts, 0 => by simp [renumberTemplates]
  | c, t :: ts, i + 1 => by
    have harith : c + 1 + i = c + (i + 1) := by omega
    simp only [renumberTemplates, List.getElem?_cons_succ,
      renumberTemplates_getElem? (c + 1) ts i, harith]

/-- Fixture: an empty collection. -/
def colEmpty : Col := { notes := [], cards := [] }

/-- Fixture: a saved Standard note-type with three fields and sort field 0. -/
def mC4 : Model :=
  { id := 1, mtype := ModelType.std,
    flds := [{ name := "A", ord := 0 }, { name := "B", ord := 1 },
      { name := "C", ord := 2 }],
    tmpls := [], sortf := 0, req := [] }

/-- C4 counterexample: moving field B (index 1, which is not the sort field — the
sort field is index 0) to index 2 changes the stored sort index to 2, while the
claim requires it to stay 0 when the moved field is not the sort field. -/
theorem moveField_sortf_counterexample :
    (1 : Nat) ≠ mC4.sortf ∧ mC4.sortf = 0 ∧
      (moveField constRender colEmpty mC4 1 2).1.sortf = 2 := by decide

/-- C4 corrected: for every note-type and every actual move (distinct in-range
indices), `moveField` sets the sort-field index to the destination index — the
moved field's new position — whether or not the moved field was the sort field. -/
theorem moveField_sortf_dest (render : Renderer) (col : Col) (m : Model)
    (oldidx idx : Nat) (ho : oldidx < m.flds.length) (hi : idx < m.flds.length)
    (hne : oldidx ≠ idx) :
    (moveField render col m oldidx idx).1.sortf = idx ∧
    ((moveField render col m oldidx idx).1.flds[idx]?).map (fun f => f.name) =
      (m.flds[oldidx]?).map fun f => f.name := by
  unfold moveField
  rw [if_neg hne, List.getElem?_eq_getElem ho]
  dsimp only []
  constructor
  · rw [save_sortf]
  · rw [save_flds]
    show (updateFieldOrds
        ((m.flds.eraseIdx oldidx).insertIdx idx m.flds[oldidx]))[idx]?.map
        (fun f => f.name) = _
    unfold updateFieldOrds
    rw [renumberFields_getElem? 0 _ idx]
    have hlen : idx ≤ (m.flds.eraseIdx oldidx).length := by
      rw [List.length_eraseIdx]
      simp only [ho, if_pos]
      omega
    have hset : ((m.flds.eraseIdx oldidx).insertIdx idx m.flds[oldidx])[idx]? =
        some m.flds[oldidx] := by
      have hl : idx < ((m.flds.eraseIdx oldidx).insertIdx idx m.flds[oldidx]).length := by
        rw [List.length_insertIdx idx _ hlen]
        omega
      rw [List.getElem?_eq_getElem hl, List.getElem_insertIdx_self _ _ _ hlen]
    rw [hset]
    rfl

/-- Fixture: `mC4` with the sort field at index 1. -/
def mC4s : Model := { mC4 with sortf := 1 }

/-- Witness for the corrected C4 theorem: moving the sort field itself lands the
sort index on the destination. -/
theorem moveField_sortf_dest_witness :
    (moveField constRender colEmpty mC4s 1 0).1.sortf = 0 :=
  (moveField_sortf_dest constRender colEmpty mC4s 1 0 (by decide) (by decide)
    (by decide)).1

/-- Fixture: a saved Standard note-type with two templates. -/
def mC5 : Model :=
  { id := 1, mtype := ModelType.std, flds := [],
    tmpls := [⟨"t0", 0, "", ""⟩, ⟨"t1", 1, "", ""⟩], sortf := 0, req := [] }

/-- Fixture: one stored note of `mC5` with one card on template 0. -/
def colC5 : Col := { notes := [⟨1, 1, []⟩], cards := [⟨1, 1, 0⟩] }

/-- The empty trace trivially satisfies the schema-first discipline. -/
theorem schemaFirst_nil : SchemaFirst [] :=
  fun i h => absurd h (Nat.not_lt_zero i)

/-- A trace opening with the schema-change notification satisfies the schema-first
discipline whatever follows. -/
theorem schemaFirst_cons_modSchema (tr : List Ev) :
    SchemaFirst (Ev.modSchema :: tr) := by
  intro i hi hw
  cases i with
  | zero => exact Bool.noConfusion hw
  | succ k => exact ⟨0, Nat.succ_pos _, Nat.succ_pos _, rfl⟩

/-- C5 counterexample: `moveTemplate` performs its bulk card-ordinal write (the
stored card's ordinal changes from 0 to 1) with no schema-change notification
anywhere in its trace, so its trace violates the schema-first discipline. -/
theorem moveTemplate_no_modSchema :
    (moveTemplate constRender colC5 mC5 0 1).2.2 = [Ev.cardWrite] ∧
    ¬ SchemaFirst [Ev.cardWrite] ∧
    (moveTemplate constRender colC5 mC5 0 1).2.1.cards = [⟨1, 1, 1⟩] := by
  refine ⟨by decide, ?_, by decide⟩
  intro h
  obtain ⟨j, hj, hji, -⟩ := h 0 (by decide) (by decide)
  exact absurd hji (Nat.not_lt_zero j)

/-- C5 corrected: every structural mutation except `moveTemplate` — `addField`,
`remField`, `moveField`, `addTemplate`, `remTemplate` past its safety check, and
`change` — notifies the storage collaborator of the schema change before any write
to stored notes or cards; `moveTemplate` alone (see the counterexample) performs its
card write without the notification. -/
theorem mutations_schemaFirst (render : Renderer) (col : Col) (m : Model)
    (field : Field) (template : Template) (idx oldidx idx2 ord : Nat)
    (nids : List Nat) (newModel : Model)
    (fmap : Option (List (Nat × Nat))) (cmap : Option (List (Nat × Option Nat))) :
    SchemaFirst (addField render col m field).2.2 ∧
    SchemaFirst (remField render col m idx).2.2 ∧
    SchemaFirst (moveField render col m oldidx idx2).2.2 ∧
    SchemaFirst (addTemplate render m template).2 ∧
    SchemaFirst (remTemplate render col m ord).2.2.2 ∧
    SchemaFirst (change col nids newModel fmap cmap).2 := by
  refine ⟨?_, ?_, ?_, ?_, ?_, ?_⟩
  · by_cases h : m.id = 0
    · have htr : (addField render col m field).2.2 = [] := by
        simp [addField, transformFields, save_id, h]
      rw [htr]
      exact schemaFirst_nil
    · have htr : (addField render col m field).2.2 =
          Ev.modSchema :: (transformFields
            (save render { m with flds := updateFieldOrds (m.flds ++ [field]) })
            (fun fields => fields ++ [""]) col).2 := by
        simp [addField, h]
      rw [htr]
      exact schemaFirst_cons_modSchema _
  · unfold remField
    cases hidx : m.flds[idx]? with
    | none => exact schemaFirst_cons_modSchema []
    | some field =>
      dsimp only []
      exact schemaFirst_cons_modSchema _
  · unfold moveField
    by_cases h : oldidx = idx2
    · rw [if_pos h]
      exact schemaFirst_cons_modSchema []
    · rw [if_neg h]
      cases hidx : m.flds[oldidx]? with
      | none => exact schemaFirst_cons_modSchema []
      | some field =>
        dsimp only []
        exact schemaFirst_cons_modSchema _
  · by_cases h : m.id = 0
    · have htr : (addTemplate render m template).2 = [] := by
        simp [addTemplate, h]
      rw [htr]
      exact schemaFirst_nil
    · have htr : (addTemplate render m template).2 = [Ev.modSchema] := by
        simp [addTemplate, h]
      rw [htr]
      exact schemaFirst_cons_modSchema []
  · unfold remTemplate
    dsimp only []
    split
    · exact schemaFirst_nil
    · exact schemaFirst_cons_modSchema _
  · exact schemaFirst_cons_modSchema _

/-- Reinserting the removed element at its index restores a list. -/
theorem insertIdx_eraseIdx_getElem :
    ∀ (l : List String) (n : Nat) (h : n < l.length),
      (l.eraseIdx n).insertIdx n (l.get ⟨n, h⟩) = l
  | [], n, h => absurd h (by simp)
  | a :: l, 0, _ => by simp
  | a :: l, n + 1, h => by
    have h2 : n < l.length := by simpa using h
    simp only [List.eraseIdx_cons_succ, List.get_cons_succ,
      List.insertIdx_succ_cons]
    rw [insertIdx_eraseIdx_getElem l n h2]

/-- Applying the note-payload move backwards restores the payload. -/
theorem moveListIdx_roundtrip (oldidx idx : Nat) (l : List String)
    (ho : oldidx < l.length) (hi : idx < l.length) :
    moveListIdx idx oldidx (moveListIdx oldidx idx l) = l := by
  by_cases he : oldidx = idx
  · subst he
    have h1 : moveListIdx oldidx oldidx l = l := by
      unfold moveListIdx
      rw [List.getElem?_eq_getElem ho]
      exact insertIdx_eraseIdx_getElem l oldidx ho
    rw [h1, h1]
  · have hler : idx ≤ (l.eraseIdx oldidx).length := by
      rw [List.length_eraseIdx]
      simp only [ho, if_pos]
      omega
    have hinner : moveListIdx oldidx idx l =
        (l.eraseIdx oldidx).insertIdx idx (l.get ⟨oldidx, ho⟩) := by
      unfold moveListIdx
      rw [List.getElem?_eq_getElem ho]
      rfl
    have hlen1 : ((l.eraseIdx oldidx).insertIdx idx (l.get ⟨oldidx, ho⟩)).length
        = l.length := by
      rw [List.length_insertIdx _ _ hler, List.length_eraseIdx]
      simp only [ho, if_pos]
      omega
    have hl : idx < ((l.eraseIdx oldidx).insertIdx idx (l.get ⟨oldidx, ho⟩)).length := by
      rw [hlen1]
      exact hi
    have hgetIdx : ((l.eraseIdx oldidx).insertIdx idx (l.get ⟨oldidx, ho⟩))[idx]? =
        some (l.get ⟨oldidx, ho⟩) := by
      rw [List.getElem?_eq_getElem hl, List.getElem_insertIdx_self _ _ _ hler]
    rw [hinner]
    unfold moveListIdx
    rw [hgetIdx]
    dsimp only []
    rw [List.eraseIdx_insertIdx idx (l.eraseIdx oldidx)]
    exact insertIdx_eraseIdx_getElem l oldidx ho

/-- Mapping a constant over a string list is replication. -/
theorem map_const_string (s : String) :
    ∀ (l : List String), (l.map fun _ => s) = List.replicate l.length s
  | [] => rfl
  | a :: l => by
    simp only [List.map_cons, List.length_cons, List.replicate_succ,
      map_const_string s l]

/-- The builder probes depend on the field list only through its length. -/
theorem reqForTemplate_congr_length (render : List String → String)
    (flds1 flds2 : List String) (h : flds1.length = flds2.length) :
    reqForTemplate render flds1 = reqForTemplate render flds2 := by
  unfold reqForTemplate
  rw [map_const_string "1" flds1, map_const_string "1" flds2,
      map_const_string "" flds1, map_const_string "" flds2, h]

/-- A cache rebuild is insensitive to everything but the variant, the template list
and the field count. -/
theorem updateRequired_req_congr (render : Renderer) (m1 m2 : Model)
    (hm : m1.mtype = m2.mtype) (ht : m1.tmpls = m2.tmpls)
    (hf : m1.flds.length = m2.flds.length) (hs : ¬ m1.mtype = ModelType.cloze) :
    (updateRequired render m1).req = (updateRequired render m2).req := by
  have hs2 : ¬ m2.mtype = ModelType.cloze := by
    rw [← hm]
    exact hs
  unfold updateRequired
  rw [if_neg hs, if_neg hs2]
  dsimp only []
  rw [ht]
  congr 1
  funext t
  rw [reqForTemplate_congr_length (render t.ord) (m1.flds.map fun f => f.name)
    (m2.flds.map fun f => f.name) (by simp [hf])]

/-- On a Cloze model the cache rebuild is the identity. -/
theorem updateRequired_cloze (render : Renderer) (m : Model)
    (h : m.mtype = ModelType.cloze) : updateRequired render m = m := by
  unfold updateRequired
  rw [if_pos h]

/-- C8: for every note-type, every field and every valid target index, moving the
field with `moveField` and then moving it back to its original index restores every
stored note's field payload and restores the requirement-cache contents, provided
the note-type starts in the saved state the pipeline maintains (a cache the builder
would produce, and one payload slot per field on its notes). -/
theorem moveField_roundtrip (render : Renderer) (col : Col) (m : Model)
    (oldidx idx : Nat) (ho : oldidx < m.flds.length) (hi : idx < m.flds.length)
    (hreq : ¬ m.id = 0 → m.req = (updateRequired render m).req)
    (hnotes : ∀ n ∈ col.notes, n.mid = m.id → n.flds.length = m.flds.length) :
    (moveField render (moveField render col m oldidx idx).2.1
      (moveField render col m oldidx idx).1 idx oldidx).2.1.notes = col.notes ∧
    (moveField render (moveField render col m oldidx idx).2.1
      (moveField render col m oldidx idx).1 idx oldidx).1.req = m.req := by
  by_cases he : oldidx = idx
  · subst he
    simp [moveField]
  · set mA0 : Model := { m with
      flds := updateFieldOrds
        ((m.flds.eraseIdx oldidx).insertIdx idx (m.flds.get ⟨oldidx, ho⟩)),
      sortf := idx } with hmA0
    have h1 : moveField render col m oldidx idx =
        (save render mA0,
         (transformFields (save render mA0) (moveListIdx oldidx idx) col).1,
         [Ev.modSchema] ++
           (transformFields (save render mA0) (moveListIdx oldidx idx) col).2) := by
      unfold moveField
      rw [if_neg he, List.getElem?_eq_getElem ho]
      rfl
    have hAid : (save render mA0).id = m.id := by
      rw [save_id]
    have hAmt : (save render mA0).mtype = m.mtype := by
      rw [save_mtype]
    have hAtm : (save render mA0).tmpls = m.tmpls := by
      rw [save_tmpls]
    have hler : idx ≤ (m.flds.eraseIdx oldidx).length := by
      rw [List.length_eraseIdx]
      simp only [ho, if_pos]
      omega
    have hAlen : (save render mA0).flds.length = m.flds.length := by
      rw [save_flds]
      show (updateFieldOrds _).length = _
      unfold updateFieldOrds
      rw [renumberFields_length, List.length_insertIdx _ _ hler,
        List.length_eraseIdx]
      simp only [ho, if_pos]
      omega
    have hiA : idx < (save render mA0).flds.length := by
      rw [hAlen]
      exact hi
    rw [h1]
    dsimp only []
    set colA := (transformFields (save render mA0) (moveListIdx oldidx idx) col).1
      with hcolA
    set mB0 : Model := { (save render mA0) with
      flds := updateFieldOrds
        (((save render mA0).flds.eraseIdx idx).insertIdx oldidx
          ((save render mA0).flds.get ⟨idx, hiA⟩)),
      sortf := oldidx } with hmB0
    have h2 : moveField render colA (save render mA0) idx oldidx =
        (save render mB0,
         (transformFields (save render mB0) (moveListIdx idx oldidx) colA).1,
         [Ev.modSchema] ++
           (transformFields (save render mB0) (moveListIdx idx oldidx) colA).2) := by
      unfold moveField
      rw [if_neg fun hh => he hh.symm, List.getElem?_eq_getElem hiA]
      rfl
    rw [h2]
    dsimp only []
    have hBsid : (save render mB0).id = m.id := by
      rw [save_id, hmB0]
      exact hAid
    have hBsmt : (save render mB0).mtype = m.mtype := by
      rw [save_mtype, hmB0]
      exact hAmt
    by_cases hid : m.id = 0
    · have hA0 : save render mA0 = mA0 := save_of_id0 render mA0 hid
      have hcolA0 : colA = col := by
        rw [hcolA]
        unfold transformFields
        rw [if_pos (hAid.trans hid)]
      have hB0 : save render mB0 = mB0 := by
        apply save_of_id0
        rw [hmB0]
        exact hAid.trans hid
      have hcolB0 : (transformFields (save render mB0) (moveListIdx idx oldidx)
          colA).1 = colA := by
        unfold transformFields
        rw [if_pos (hBsid.trans hid)]
      rw [hcolB0, hcolA0, hB0]
      refine ⟨rfl, ?_⟩
      show (save render mA0).req = m.req
      rw [hA0]
    · have hAid0 : ¬ (save render mA0).id = 0 := by
        rw [hAid]
        exact hid
      have hBid0 : ¬ (save render mB0).id = 0 := by
        rw [hBsid]
        exact hid
      constructor
      · -- note payloads are restored
        have hcolAnotes : colA.notes = col.notes.map fun n =>
            if n.mid = (save render mA0).id then
              { n with flds := moveListIdx oldidx idx n.flds }
            else n := by
          rw [hcolA]
          unfold transformFields
          rw [if_neg hAid0]
        have hnotes2 : (transformFields (save render mB0) (moveListIdx idx oldidx)
            colA).1.notes = colA.notes.map fun n =>
              if n.mid = (save render mB0).id then
                { n with flds := moveListIdx idx oldidx n.flds }
              else n := by
          unfold transformFields
          rw [if_neg hBid0]
        rw [hnotes2, hcolAnotes, List.map_map]
        have hpt : ∀ n ∈ col.notes,
            ((fun n =>
              if n.mid = (save render mB0).id then
                { n with flds := moveListIdx idx oldidx n.flds }
              else n) ∘ fun n =>
              if n.mid = (save render mA0).id then
                { n with flds := moveListIdx oldidx idx n.flds }
              else n) n = id n := by
          intro n hn
          simp only [Function.comp_apply, hAid, hBsid, id_eq]
          by_cases hmid : n.mid = m.id
          · rw [if_pos hmid]
            have hmid2 : ({ n with flds := moveListIdx oldidx idx n.flds }).mid
                = m.id := hmid
            rw [if_pos hmid2]
            have hlen : n.flds.length = m.flds.length := hnotes n hn hmid
            have := moveListIdx_roundtrip oldidx idx n.flds (hlen ▸ ho) (hlen ▸ hi)
            show ({ n with
              flds := moveListIdx idx oldidx (moveListIdx oldidx idx n.flds) } : Note)
              = n
            rw [this]
          · rw [if_neg hmid, if_neg hmid]
        rw [List.map_congr_left hpt, List.map_id]
      · -- the requirement cache is restored
        show (save render mB0).req = m.req
        have hmB0id : ¬ mB0.id = 0 := by
          rw [hmB0]
          exact hAid0
        rw [save_req_of_ne render mB0 hmB0id]
        by_cases hcl : m.mtype = ModelType.cloze
        · have hBmt : mB0.mtype = ModelType.cloze := by
            rw [hmB0]
            exact hAmt.trans hcl
          rw [updateRequired_cloze render mB0 hBmt]
          show (save render mA0).req = m.req
          have hmA0id : ¬ mA0.id = 0 := hid
          rw [save_req_of_ne render mA0 hmA0id,
            updateRequired_cloze render mA0 hcl]
        · have hlerB : oldidx ≤ ((save render mA0).flds.eraseIdx idx).length := by
            rw [List.length_eraseIdx]
            simp only [hiA, if_pos]
            rw [hAlen]
            omega
          have hm : mB0.mtype = m.mtype := by
            rw [hmB0]
            exact hAmt
          have ht2 : mB0.tmpls = m.tmpls := by
            rw [hmB0]
            exact hAtm
          have hf : mB0.flds.length = m.flds.length := by
            rw [hmB0]
            show (updateFieldOrds _).length = _
            unfold updateFieldOrds
            rw [renumberFields_length, List.length_insertIdx _ _ hlerB,
              List.length_eraseIdx]
            simp only [hiA, if_pos]
            rw [hAlen]
            omega
          have hs : ¬ mB0.mtype = ModelType.cloze := by
            rw [hm]
            exact hcl
          rw [updateRequired_req_congr render mB0 m hm ht2 hf hs]
          exact (hreq hid).symm

/-- A stored note belonging to model `m`. -/
def NoteOfModel (col : Col) (m : Model) (nid : Nat) : Prop :=
  ∃ f ∈ col.notes, f.id = nid ∧ f.mid = m.id

instance (col : Col) (m : Model) (nid : Nat) : Decidable (NoteOfModel col m nid) :=
  inferInstanceAs (Decidable (∃ f ∈ col.notes, f.id = nid ∧ f.mid = m.id))

/-- A stored card sitting on template ordinal `ord` of model `m` (the SQL join in
`remTemplate`). -/
def OnTemplate (col : Col) (m : Model) (ord : Nat) (c : Card) : Prop :=
  c.ord = ord ∧ NoteOfModel col m c.nid

instance (col : Col) (m : Model) (ord : Nat) (c : Card) :
    Decidable (OnTemplate col m ord c) :=
  inferInstanceAs (Decidable (c.ord = ord ∧ NoteOfModel col m c.nid))

/-- Some note with a card on template `ord` of model `m` has fewer than two stored
cards in total — the condition under which `remTemplate` must refuse. -/
def OrphanRisk (col : Col) (m : Model) (ord : Nat) : Prop :=
  ∃ f ∈ col.notes, f.mid = m.id ∧ (∃ c ∈ col.cards, c.nid = f.id ∧ c.ord = ord) ∧
    (col.cards.filter fun c => c.nid == f.id).length < 2

instance (col : Col) (m : Model) (ord : Nat) : Decidable (OrphanRisk col m ord) :=
  inferInstanceAs (Decidable (∃ f ∈ col.notes, f.mid = m.id ∧
    (∃ c ∈ col.cards, c.nid = f.id ∧ c.ord = ord) ∧
    (col.cards.filter fun c => c.nid == f.id).length < 2))

/-- With distinct stored card ids, a card's id is among the collected `cids` iff
the card itself sits on the removed template. -/
theorem mem_remTemplateCids (col : Col) (m : Model) (ord : Nat) (c : Card)
    (hcard : (col.cards.map fun c => c.id).Nodup) (hc : c ∈ col.cards) :
    (remTemplateCids col m ord).contains c.id = true ↔ OnTemplate col m ord c := by
  unfold remTemplateCids
  rw [show ∀ (l : List Nat) (a : Nat), l.contains a = l.elem a from fun _ _ => rfl,
    List.elem_iff, List.mem_map]
  constructor
  · rintro ⟨c2, hc2, hcid⟩
    rw [List.mem_filter] at hc2
    obtain ⟨hc2mem, hc2p⟩ := hc2
    have hceq : c2 = c := List.inj_on_of_nodup_map hcard hc2mem hc hcid
    subst hceq
    rw [Bool.and_eq_true, beq_iff_eq, List.any_eq_true] at hc2p
    obtain ⟨hordc, f, hf, hfp⟩ := hc2p
    rw [Bool.and_eq_true, beq_iff_eq, beq_iff_eq] at hfp
    exact ⟨hordc, f, hf, hfp.1.symm, hfp.2⟩
  · rintro ⟨hordc, f, hf, hfid, hfmid⟩
    refine ⟨c, ?_, rfl⟩
    rw [List.mem_filter]
    refine ⟨hc, ?_⟩
    rw [Bool.and_eq_true, beq_iff_eq, List.any_eq_true]
    refine ⟨hordc, f, hf, ?_⟩
    rw [Bool.and_eq_true, beq_iff_eq, beq_iff_eq]
    exact ⟨hfid.symm, hfmid⟩

/-- With distinct stored card ids, the orphan check fires exactly on the orphan
risk. -/
theorem remTemplateGuard_iff (col : Col) (m : Model) (ord : Nat)
    (hcard : (col.cards.map fun c => c.id).Nodup) :
    remTemplateGuard col m ord = true ↔ OrphanRisk col m ord := by
  unfold remTemplateGuard
  rw [List.any_eq_true]
  constructor
  · rintro ⟨nid, hnid, hcount⟩
    rw [List.mem_map] at hnid
    obtain ⟨c, hcf, rfl⟩ := hnid
    rw [List.mem_filter] at hcf
    obtain ⟨hcmem, hccont⟩ := hcf
    obtain ⟨hordc, f, hf, hfid, hfmid⟩ :=
      (mem_remTemplateCids col m ord c hcard hcmem).mp hccont
    rw [decide_eq_true_eq] at hcount
    refine ⟨f, hf, hfmid, ⟨c, hcmem, hfid.symm, hordc⟩, ?_⟩
    rw [hfid]
    exact hcount
  · rintro ⟨f, hf, hfmid, ⟨c, hcmem, hcnid, hcord⟩, hcount⟩
    refine ⟨c.nid, ?_, ?_⟩
    · rw [List.mem_map]
      refine ⟨c, ?_, rfl⟩
      rw [List.mem_filter]
      refine ⟨hcmem, (mem_remTemplateCids col m ord c hcard hcmem).mpr ?_⟩
      exact ⟨hcord, f, hf, hcnid.symm, hfmid⟩
    · rw [decide_eq_true_eq, hcnid]
      exact hcount

/-- Position lemma for the template renumbering. -/
theorem updateTemplOrds_getElem? (ts : List Template) (i : Nat) :
    (updateTemplOrds ts)[i]? = (ts[i]?).map fun t => { t with ord := i } := by
  unfold updateTemplOrds
  rw [renumberTemplates_getElem?]
  simp

/-- C1: for a saved Standard note-type with at least two templates, `remTemplate`
refuses (returning failure and changing nothing — templates, cards, ordinals, sort
field and requirement cache included) exactly when some note with a card on the
removed template has fewer than two cards in total; otherwise it returns success,
deletes exactly the cards on that template, decrements the ordinal of every
remaining card of the note-type above the removed ordinal, removes the template,
renumbers template ordinals contiguously and rebuilds the requirement cache for the
new template list, leaving notes and the sort field alone. -/
theorem remTemplate_spec (render : Renderer) (col : Col) (m : Model) (ord : Nat)
    (_hstd : m.mtype = ModelType.std) (hid : ¬ m.id = 0)
    (_htm : 2 ≤ m.tmpls.length) (hord : ord < m.tmpls.length)
    (hcard : (col.cards.map fun c => c.id).Nodup) :
    (OrphanRisk col m ord →
      remTemplate render col m ord = (false, m, col, [])) ∧
    (¬ OrphanRisk col m ord →
      (remTemplate render col m ord).1 = true ∧
      (remTemplate render col m ord).2.2.1.notes = col.notes ∧
      (remTemplate render col m ord).2.2.1.cards =
        (col.cards.filter fun c => decide (¬ OnTemplate col m ord c)).map
          (fun c => if NoteOfModel col m c.nid ∧ ord < c.ord then
            { c with ord := c.ord - 1 } else c) ∧
      (remTemplate render col m ord).2.1.tmpls.length = m.tmpls.length - 1 ∧
      (∀ i, i < ord →
        (remTemplate render col m ord).2.1.tmpls[i]? =
          (m.tmpls[i]?).map fun t => { t with ord := i }) ∧
      (∀ i, ord ≤ i →
        (remTemplate render col m ord).2.1.tmpls[i]? =
          (m.tmpls[i + 1]?).map fun t => { t with ord := i }) ∧
      (remTemplate render col m ord).2.1.sortf = m.sortf ∧
      (remTemplate render col m ord).2.1.req =
        (updateRequired render
          { m with tmpls := (remTemplate render col m ord).2.1.tmpls }).req) := by
  constructor
  · intro hrisk
    unfold remTemplate
    rw [if_pos ((remTemplateGuard_iff col m ord hcard).mpr hrisk)]
  · intro hrisk
    have hg : ¬ remTemplateGuard col m ord = true :=
      fun h => hrisk ((remTemplateGuard_iff col m ord hcard).mp h)
    unfold remTemplate
    rw [if_neg hg]
    dsimp only []
    refine ⟨rfl, rfl, ?_, ?_, ?_, ?_, ?_, ?_⟩
    · -- cards: delete exactly the on-template cards, then shift
      have hfeq : (col.cards.filter fun c =>
          !(remTemplateCids col m ord).contains c.id) =
          col.cards.filter fun c => decide (¬ OnTemplate col m ord c) := by
        apply List.filter_congr
        intro c hc
        rw [decide_not]
        by_cases hOT : OnTemplate col m ord c
        · rw [(mem_remTemplateCids col m ord c hcard hc).mpr hOT,
            decide_eq_true hOT]
        · have hcont : (remTemplateCids col m ord).contains c.id = false := by
            rw [← Bool.not_eq_true]
            exact fun hh => hOT ((mem_remTemplateCids col m ord c hcard hc).mp hh)
          rw [hcont, decide_eq_false hOT]
      rw [hfeq]
      apply List.map_congr_left
      intro c _
      by_cases hsh : NoteOfModel col m c.nid ∧ ord < c.ord
      · rw [if_pos hsh]
        have hb : ((col.notes.any fun f => f.id == c.nid && f.mid == m.id)
            && decide (ord < c.ord)) = true := by
          rw [Bool.and_eq_true]
          constructor
          · rw [List.any_eq_true]
            obtain ⟨f, hf, h1, h2⟩ := hsh.1
            refine ⟨f, hf, ?_⟩
            rw [Bool.and_eq_true, beq_iff_eq, beq_iff_eq]
            exact ⟨h1, h2⟩
          · exact decide_eq_true hsh.2
        rw [if_pos hb]
      · rw [if_neg hsh]
        have hb : ¬ ((col.notes.any fun f => f.id == c.nid && f.mid == m.id)
            && decide (ord < c.ord)) = true := by
          rw [Bool.and_eq_true]
          rintro ⟨hany, hlt⟩
          apply hsh
          rw [List.any_eq_true] at hany
          obtain ⟨f, hf, hfp⟩ := hany
          rw [Bool.and_eq_true, beq_iff_eq, beq_iff_eq] at hfp
          exact ⟨⟨f, hf, hfp.1, hfp.2⟩, of_decide_eq_true hlt⟩
        rw [if_neg hb]
    · -- template count
      rw [save_tmpls]
      show (updateTemplOrds (m.tmpls.eraseIdx ord)).length = _
      unfold updateTemplOrds
      rw [renumberTemplates_length, List.length_eraseIdx]
      simp [hord]
    · -- entries below the removed ordinal
      intro i hi
      rw [save_tmpls]
      show (updateTemplOrds (m.tmpls.eraseIdx ord))[i]? = _
      rw [updateTemplOrds_getElem?, List.getElem?_eraseIdx_of_lt _ _ _ hi]
    · -- entries at and above the removed ordinal
      intro i hi
      rw [save_tmpls]
      show (updateTemplOrds (m.tmpls.eraseIdx ord))[i]? = _
      rw [updateTemplOrds_getElem?, List.getElem?_eraseIdx_of_ge _ _ _ hi]
    · rw [save_sortf]
    · -- cache rebuilt for the new template list
      rw [save_tmpls]
      exact save_req_of_ne render _ hid

/-- Fixture: a saved two-template Standard note-type. -/
def mC1 : Model :=
  { id := 9, mtype := ModelType.std, flds := [],
    tmpls := [⟨"t0", 0, "", ""⟩, ⟨"t1", 1, "", ""⟩], sortf := 0, req := [] }

/-- Fixture: one note of `mC1` with a single card, on template 0 (the spec's
Scenario C failure case). -/
def colC1 : Col := { notes := [⟨21, 9, []⟩], cards := [⟨31, 21, 0⟩] }

/-- Witness for the C1 theorem: removing template 0 from `mC1` over `colC1` is
refused and leaves the model and collection unchanged. -/
theorem remTemplate_spec_witness :
    remTemplate constRender colC1 mC1 0 = (false, mC1, colC1, []) :=
  (remTemplate_spec constRender colC1 mC1 0 rfl (by decide) (by decide) (by decide)
    (by decide)).1 (by decide)

/-- Fixture: a saved two-field Standard note-type whose cache is exactly what the
builder produces for it under `constRender`. -/
def mC8 : Model :=
  { id := 7, mtype := ModelType.std,
    flds := [{ name := "F", ord := 0 }, { name := "G", ord := 1 }],
    tmpls := [⟨"t0", 0, "", ""⟩],
    sortf := 0, req := [(0, ReqKind.rnone, [])] }

/-- Fixture: one stored note of `mC8` with a two-slot payload. -/
def colC8 : Col := { notes := [⟨5, 7, ["x", "y"]⟩], cards := [] }

/-- Witness for the C8 theorem: the concrete round trip restores the stored note
payloads. -/
theorem moveField_roundtrip_witness :
    (moveField constRender (moveField constRender colC8 mC8 0 1).2.1
      (moveField constRender colC8 mC8 0 1).1 1 0).2.1.notes = colC8.notes :=
  (moveField_roundtrip constRender colC8 mC8 0 1 (by decide) (by decide)
    (fun _ => by decide) (by decide)).1

end Anki
